import Mathlib

/-
Verification of the optimistic transaction queue and nonce-ordered
submission engine of the onchain-typing-race repository
(src/hooks/useTypingGameQueue.ts, given here as src/unnamed/part_005).

The hook owns two pieces of state, a `GameState` record and a list of
`LetterTransaction` records, plus a cached nonce (`nonceRef`).  All
mutations happen on the single JavaScript thread; asynchronous work
(promise resolution of `writeContract`, `setTimeout` callbacks of
`simulateConfirmation`, of `fastForwardTransactions` and of the
completion chain in `completeGame`, and the polling effect) is modelled
as events of a transition system: each event is one atomic block of
synchronous state mutation from the source, and an execution of the
engine is a sequence of events.  Numbers (counters, nonces, session
ids) are JavaScript numbers; the optimistic counters are modelled as
integers so that non-negativity is a property, not a typing artifact.
Hashes are modelled as naturals handed out by the network: real
submissions receive fresh identifiers (a counter starting at 1), and
the mock hash `0xfff...f` that fastForwardTransactions fabricates is
modelled by the distinguished value 0.  Letters are modelled by their
character code (the source converts them with charCodeAt anyway).
-/

namespace TypingRace

/-- The transaction kinds of the source: the string union
written there as a letter, startGame or completeGame transaction. -/
inductive TxType
  | startGame
  | letter
  | completeGame
deriving DecidableEq

/-- The status union of a LetterTransaction in the source. -/
inductive TxStatus
  | pending
  | sent
  | confirmed
  | failed
deriving DecidableEq

/-- The LetterTransaction interface of the source (the display-only
timestamp field is omitted; letters are carried as character codes). -/
structure LetterTransaction where
  id : Nat
  type : TxType
  letter : Option Nat := none
  hash : Option Nat := none
  status : TxStatus
  error : Option String := none
  gameSession : Option Nat := none
  fastForwarded : Bool := false
deriving DecidableEq

/-- The GameState interface of the source (the display-only startTime
field is omitted).  The optimistic counters are integers. -/
structure GameState where
  isActive : Bool
  isCompleting : Bool
  gameSession : Option Nat
  localLetterCount : Int
  localWordCount : Int
  countdown : Nat
deriving DecidableEq

/-- The whole state owned by the hook: the two useState cells, the
nonce cache, and the bookkeeping of the asynchronous machinery:
`inFlight` holds the ids of records whose dispatch promise has not
resolved yet, `simulateScheduled` the ids with a pending
simulateConfirmation timer, `ffChainScheduled` and `finishScheduled`
count the pending outer and inner setTimeout callbacks of
completeGame, and `ffOverwrites` holds the snapshot records whose
delayed write-back fastForwardTransactions has scheduled.  `nextId`
and `nextHash` generate fresh record ids and fresh network hashes. -/
structure EngineState where
  gameState : GameState
  transactions : List LetterTransaction
  nonceRef : Option Nat
  nextId : Nat
  nextHash : Nat
  inFlight : List Nat
  simulateScheduled : List Nat
  ffChainScheduled : Nat
  finishScheduled : Nat
  ffOverwrites : List LetterTransaction
deriving DecidableEq

/-- JavaScript truthiness of the gameSession field (number or null):
null and 0 are falsy. -/
def truthySession : Option Nat → Bool
  | some g => decide (g ≠ 0)
  | none => false

/-- The pending-or-sent test the source uses for the drain condition,
for fastForwardTransactions and for clearCompleted. -/
def pendingOrSent : TxStatus → Bool
  | TxStatus.pending => true
  | TxStatus.sent => true
  | _ => false

/-- Map over the transaction list touching exactly the records with the
given id, as every setTransactions(prev.map(...)) of the source does. -/
def updTx (txId : Nat) (f : LetterTransaction → LetterTransaction)
    (txs : List LetterTransaction) : List LetterTransaction :=
  txs.map (fun t => if t.id = txId then f t else t)

/-- Lookup of a record by id. -/
def findTx (s : EngineState) (txId : Nat) : Option LetterTransaction :=
  s.transactions.find? (fun t => decide (t.id = txId))

/-- Status of the record with the given id, if any. -/
def statusOf (s : EngineState) (txId : Nat) : Option TxStatus :=
  (findTx s txId).map (fun t => t.status)

/-- The initial GameState of the source (useState initializer, also
what resetGame writes back). -/
def initialGameState : GameState :=
  { isActive := false
    isCompleting := false
    gameSession := none
    localLetterCount := 0
    localWordCount := 0
    countdown := 0 }

/-- The initial engine state. -/
def initEngine : EngineState :=
  { gameState := initialGameState
    transactions := []
    nonceRef := none
    nextId := 0
    nextHash := 1
    inFlight := []
    simulateScheduled := []
    ffChainScheduled := 0
    finishScheduled := 0
    ffOverwrites := [] }

/-- The word the catch handler of sendTransactionAsync looks for in the
error message to decide that the failure is a nonce conflict. -/
def nonceWord : String := "nonce"

/-- Whether the pattern is a prefix of the text, on character lists. -/
def matchesFront : List Char → List Char → Bool
  | [], _ => true
  | _ :: _, [] => false
  | p :: ps, t :: ts => p = t && matchesFront ps ts

/-- Whether the pattern occurs somewhere in the text, on character
lists: the model of the JavaScript String.includes call. -/
def hasSub (pat : List Char) : List Char → Bool
  | [] => pat.isEmpty
  | t :: ts => matchesFront pat (t :: ts) || hasSub pat ts

/-- error.message.includes of the source, applied to the nonce word. -/
def containsNonce (msg : String) : Bool :=
  hasSub nonceWord.toList msg.toList

/-- getNextNonce of the source, as a pure function of the cached value,
given the pending-inclusive transaction count the network would report:
on a cold cache it fetches and caches that count, otherwise it advances
the cache by one synchronously and returns it. -/
def getNextNonce (networkCount : Nat) : Option Nat → Nat × Option Nat
  | none => (networkCount, some networkCount)
  | some c => (c + 1, some (c + 1))

/-- The values returned by a run of back-to-back getNextNonce calls
starting from the given cache. -/
def nonceCallsAux (networkCount : Nat) : Nat → Option Nat → List Nat
  | 0, _ => []
  | Nat.succ k, cache =>
    let r := getNextNonce networkCount cache
    r.1 :: nonceCallsAux networkCount k r.2

/-- The values returned by n back-to-back getNextNonce calls of a fresh
session (cold cache). -/
def nonceValues (networkCount n : Nat) : List Nat :=
  nonceCallsAux networkCount n none

/-- The rollback the catch handler of sendTransactionAsync applies to
the game state, by transaction kind: a failed startGame forces the
session back to idle, a failed letter decrements the optimistic letter
counter clamped at zero (Math.max(0, count - 1)), a failed
completeGame leaves the game state alone. -/
def rollbackGameState (ty : TxType) (g : GameState) : GameState :=
  match ty with
  | TxType.startGame =>
      { g with isActive := false, gameSession := none, countdown := 0 }
  | TxType.letter =>
      { g with localLetterCount := max 0 (g.localLetterCount - 1) }
  | TxType.completeGame => g

/-- The update the confirmation monitor applies to a record whose hash
has a receipt: confirmed, with the fastForwarded flag cleared. -/
def confirmUpd (t : LetterTransaction) : LetterTransaction :=
  { t with status := TxStatus.confirmed, fastForwarded := false }

/-- The record update of the confirmation monitor: every record whose
hash equals the polled hash becomes confirmed with the fastForwarded
flag cleared. -/
def confirmByHash (h : Nat) (txs : List LetterTransaction) :
    List LetterTransaction :=
  txs.map (fun t => if t.hash = some h then confirmUpd t else t)

/-- One iteration set of the monitor loop: the given list of sent
records is walked in order and, for each whose hash has a receipt, the
confirming update is applied.  `receipts` is the set of hashes for
which the network currently returns a receipt. -/
def monFold (receipts : List Nat) (sentList : List LetterTransaction)
    (txs : List LetterTransaction) : List LetterTransaction :=
  sentList.foldl
    (fun acc t =>
      match t.hash with
      | some h => if h ∈ receipts then confirmByHash h acc else acc
      | none => acc)
    txs

/-- One polling pass of the confirmation-monitor effect: the records
with a hash and status sent are collected, and each one that has a
receipt is flipped to confirmed; a record without a receipt (the
getTransactionReceipt call throws or returns nothing) is left alone. -/
def monitorPass (receipts : List Nat) (txs : List LetterTransaction) :
    List LetterTransaction :=
  monFold receipts
    (txs.filter (fun t => t.hash.isSome && decide (t.status = TxStatus.sent)))
    txs

/-- The mock hash fastForwardTransactions fabricates for records that
have none yet (0xfff...f in the source). -/
def mockHash : Nat := 0

/-- The snapshot fastForwardTransactions computes synchronously: every
pending or sent record, converted to confirmed, with a mock hash if it
has none, and flagged as fast-forwarded.  The delayed setTimeout
callbacks then write these snapshot records back one by one. -/
def ffSnapshot (txs : List LetterTransaction) : List LetterTransaction :=
  (txs.filter (fun t => pendingOrSent t.status)).map (fun t =>
    { t with
      status := TxStatus.confirmed
      hash := some (t.hash.getD mockHash)
      fastForwarded := true })

/-- The events of the engine.  Each is one atomic synchronous block of
the source: the exported actions, the resolution of a dispatch promise
(success or failure, with the data the network returns), the timer
callbacks, one polling pass, and the two React effects. -/
inductive Event
  | startGame
  | activate
  | submitLetter (code : Nat)
  | completeWord
  | completeGame
  | resolveSuccess (txId : Nat) (netSession : Nat)
  | resolveFail (txId : Nat) (msg : String)
  | simulateFire (txId : Nat)
  | monitorPass (receipts : List Nat)
  | fastForward
  | ffChainFire
  | ffOverwrite (txId : Nat)
  | finishFire
  | drainCheck
  | resetGame
  | clearCompleted
deriving DecidableEq

/-- startGame of the source: rejected while active or counting down;
otherwise it resets the nonce cache, starts the countdown, creates the
pending startGame record and fires its dispatch. -/
def startGameStep (s : EngineState) : Option EngineState :=
  if s.gameState.isActive = true ∨ s.gameState.countdown ≠ 0 then none
  else
    let tx : LetterTransaction :=
      { id := s.nextId, type := TxType.startGame, status := TxStatus.pending }
    some { s with
      nonceRef := none
      gameState := { s.gameState with countdown := 3 }
      transactions := s.transactions ++ [tx]
      inFlight := s.nextId :: s.inFlight
      nextId := s.nextId + 1 }

/-- The end of the countdown interval of startGame: the game becomes
active and the optimistic counters are reset. -/
def activateStep (s : EngineState) : Option EngineState :=
  if s.gameState.countdown = 0 then none
  else some { s with gameState := { s.gameState with
    isActive := true
    localLetterCount := 0
    localWordCount := 0
    countdown := 0 } }

/-- submitLetter of the source: rejected synchronously unless the game
is active and the session handle is truthy; otherwise the optimistic
letter counter is incremented and the pending letter record is created
and dispatched, all before any network interaction. -/
def submitLetterStep (s : EngineState) (code : Nat) : Option EngineState :=
  if s.gameState.isActive = false ∨ truthySession s.gameState.gameSession = false
  then none
  else
    let tx : LetterTransaction :=
      { id := s.nextId
        type := TxType.letter
        letter := some code
        status := TxStatus.pending
        gameSession := s.gameState.gameSession }
    some { s with
      gameState := { s.gameState with
        localLetterCount := s.gameState.localLetterCount + 1 }
      transactions := s.transactions ++ [tx]
      inFlight := s.nextId :: s.inFlight
      nextId := s.nextId + 1 }

/-- completeWord of the source: a purely local word-count increment. -/
def completeWordStep (s : EngineState) : Option EngineState :=
  if s.gameState.isActive = false then none
  else some { s with gameState := { s.gameState with
    localWordCount := s.gameState.localWordCount + 1 } }

/-- completeGame of the source: rejected unless active with a truthy
session handle and not already completing; otherwise the game stops,
the completing phase begins, the pending completeGame record is
created and dispatched, and the outer setTimeout of the completion
chain (fast-forward then finish) is scheduled. -/
def completeGameStep (s : EngineState) : Option EngineState :=
  if s.gameState.isActive = false ∨ truthySession s.gameState.gameSession = false
     ∨ s.gameState.isCompleting = true
  then none
  else
    let tx : LetterTransaction :=
      { id := s.nextId
        type := TxType.completeGame
        status := TxStatus.pending
        gameSession := s.gameState.gameSession }
    some { s with
      gameState := { s.gameState with isActive := false, isCompleting := true }
      transactions := s.transactions ++ [tx]
      inFlight := s.nextId :: s.inFlight
      nextId := s.nextId + 1
      ffChainScheduled := s.ffChainScheduled + 1 }

/-- Successful resolution of the writeContract promise of a dispatch:
the record is mapped by id to status sent with the fresh network hash,
for a startGame dispatch the session handle returned by the network is
captured in the game state and on the record, and the
simulateConfirmation timer for the record is scheduled. -/
def resolveSuccessStep (s : EngineState) (txId netSession : Nat) :
    Option EngineState :=
  if txId ∈ s.inFlight then
    match findTx s txId with
    | none => none
    | some tx =>
      if tx.type = TxType.startGame then
        some { s with
          gameState := { s.gameState with gameSession := some netSession }
          transactions := updTx txId (fun t =>
            { t with hash := some s.nextHash, status := TxStatus.sent
                     gameSession := some netSession }) s.transactions
          inFlight := s.inFlight.erase txId
          nextHash := s.nextHash + 1
          simulateScheduled := txId :: s.simulateScheduled }
      else
        some { s with
          transactions := updTx txId (fun t =>
            { t with hash := some s.nextHash, status := TxStatus.sent })
            s.transactions
          inFlight := s.inFlight.erase txId
          nextHash := s.nextHash + 1
          simulateScheduled := txId :: s.simulateScheduled }
  else none

/-- Failing resolution of a dispatch (the catch handler of
sendTransactionAsync): the nonce cache is invalidated when the error
message mentions the nonce word, the kind-specific rollback is applied
to the game state, and the record is mapped by id to status failed with
the error detail recorded. -/
def resolveFailStep (s : EngineState) (txId : Nat) (msg : String) :
    Option EngineState :=
  if txId ∈ s.inFlight then
    match findTx s txId with
    | none => none
    | some tx =>
      some { s with
        nonceRef := if containsNonce msg = true then none else s.nonceRef
        gameState := rollbackGameState tx.type s.gameState
        transactions := updTx txId (fun t =>
          { t with status := TxStatus.failed, error := some msg }) s.transactions
        inFlight := s.inFlight.erase txId }
  else none

/-- The simulateConfirmation timer callback: the record with the given
id becomes confirmed with the fastForwarded flag set, unconditionally
on its current status, exactly as the setTimeout body in the source. -/
def simulateFireStep (s : EngineState) (txId : Nat) : Option EngineState :=
  if txId ∈ s.simulateScheduled then
    some { s with
      simulateScheduled := s.simulateScheduled.erase txId
      transactions := updTx txId (fun t =>
        { t with status := TxStatus.confirmed, fastForwarded := true })
        s.transactions }
  else none

/-- One pass of the confirmation-monitor effect, with the set of hashes
the network currently has receipts for. -/
def monitorPassStep (s : EngineState) (receipts : List Nat) :
    Option EngineState :=
  some { s with transactions := monitorPass receipts s.transactions }

/-- A direct call of the exported fastForwardTransactions: the snapshot
of pending and sent records is taken synchronously and their delayed
confirmed write-backs are scheduled; the transaction list itself is
returned unchanged (the source returns prev). -/
def fastForwardStep (s : EngineState) : Option EngineState :=
  some { s with ffOverwrites := s.ffOverwrites ++ ffSnapshot s.transactions }

/-- The outer setTimeout of the completion chain of completeGame: it
runs fastForwardTransactions and schedules the inner finish timer. -/
def ffChainFireStep (s : EngineState) : Option EngineState :=
  if s.ffChainScheduled = 0 then none
  else some { s with
    ffChainScheduled := s.ffChainScheduled - 1
    ffOverwrites := s.ffOverwrites ++ ffSnapshot s.transactions
    finishScheduled := s.finishScheduled + 1 }

/-- One delayed write-back of fastForwardTransactions: the snapshot
record replaces the record with the same id, whatever that record has
become in the meantime. -/
def ffOverwriteStep (s : EngineState) (txId : Nat) : Option EngineState :=
  match s.ffOverwrites.find? (fun t => decide (t.id = txId)) with
  | none => none
  | some snap =>
    some { s with
      ffOverwrites := s.ffOverwrites.eraseP (fun t => decide (t.id = txId))
      transactions := updTx txId (fun _ => snap) s.transactions }

/-- The inner setTimeout of the completion chain of completeGame: it
ends the completing phase and clears the session handle
unconditionally, without looking at the records. -/
def finishFireStep (s : EngineState) : Option EngineState :=
  if s.finishScheduled = 0 then none
  else some { s with
    finishScheduled := s.finishScheduled - 1
    gameState := { s.gameState with isCompleting := false, gameSession := none } }

/-- The completion-monitor effect of the source: when the game is
completing and no record is pending or sent any more, the completing
phase ends and the session handle is cleared. -/
def drainCheckStep (s : EngineState) : Option EngineState :=
  if s.gameState.isCompleting = true
     ∧ (s.transactions.filter (fun t => pendingOrSent t.status)).isEmpty = true
  then some { s with
    gameState := { s.gameState with isCompleting := false, gameSession := none } }
  else none

/-- resetGame of the source: the countdown timer is cleared, the nonce
cache is invalidated and the game state is reset; already-scheduled
anonymous timers and in-flight dispatches are not retracted. -/
def resetGameStep (s : EngineState) : Option EngineState :=
  some { s with nonceRef := none, gameState := initialGameState }

/-- clearCompleted of the source: only pending and sent records are
kept. -/
def clearCompletedStep (s : EngineState) : Option EngineState :=
  some { s with
    transactions := s.transactions.filter (fun t => pendingOrSent t.status) }

/-- The transition function of the engine: none means the event is not
enabled there (a guard rejected the call synchronously, or no such
timer or promise is outstanding). -/
def step (s : EngineState) : Event → Option EngineState
  | Event.startGame => startGameStep s
  | Event.activate => activateStep s
  | Event.submitLetter c => submitLetterStep s c
  | Event.completeWord => completeWordStep s
  | Event.completeGame => completeGameStep s
  | Event.resolveSuccess i n => resolveSuccessStep s i n
  | Event.resolveFail i m => resolveFailStep s i m
  | Event.simulateFire i => simulateFireStep s i
  | Event.monitorPass rs => monitorPassStep s rs
  | Event.fastForward => fastForwardStep s
  | Event.ffChainFire => ffChainFireStep s
  | Event.ffOverwrite i => ffOverwriteStep s i
  | Event.finishFire => finishFireStep s
  | Event.drainCheck => drainCheckStep s
  | Event.resetGame => resetGameStep s
  | Event.clearCompleted => clearCompletedStep s

/-- Run a sequence of events; the whole run fails if any event is not
enabled where it is attempted. -/
def run (s : EngineState) : List Event → Option EngineState
  | [] => some s
  | e :: es => (step s e).bind (fun s2 => run s2 es)

/-- A state is reachable when some event sequence leads to it from the
initial state. -/
def Reachable (s : EngineState) : Prop :=
  ∃ evs : List Event, run initEngine evs = some s

/-- The state a sequence of events reaches (the initial state if the
run is rejected; used only on runs shown to succeed). -/
def runD (evs : List Event) : EngineState :=
  (run initEngine evs).getD initEngine

/-- The test of one monitor iteration against a record: the iteration
for the sent record u hits every record whose hash equals the hash of
u, provided u has a hash with a receipt. -/
def hitsHash (receipts : List Nat) (oh : Option Nat)
    (u : LetterTransaction) : Bool :=
  match u.hash with
  | some h => decide (oh = some h) && decide (h ∈ receipts)
  | none => false

/-- No record shares the hash of a sent record: true of every state the
engine reaches, because sent records carry the fresh identifier their
own submission returned, and the fabricated mock hash is only ever
attached to records that are confirmed (or later failed), never sent. -/
def SentHashesUnshared (txs : List LetterTransaction) : Prop :=
  ∀ u ∈ txs, ∀ t ∈ txs, u.status = TxStatus.sent → u.hash.isSome = true →
    u.hash = t.hash → u = t

/-- The inductive invariant of the engine: the optimistic counters are
non-negative, and the in-flight dispatch tokens are distinct ids below
the id generator (a dispatch promise resolves at most once). -/
def StateInv (s : EngineState) : Prop :=
  0 ≤ s.gameState.localLetterCount ∧
  0 ≤ s.gameState.localWordCount ∧
  s.inFlight.Nodup ∧
  (∀ x ∈ s.inFlight, x < s.nextId)

/-- An error message that mentions the nonce word. -/
def msgNonceErr : String := "failed to validate nonce"

/-- An error message that does not mention the nonce word. -/
def msgOther : String := "network unavailable"

/-- Execution for the C1 counterexample, up to the finish timer: start
a session (the dispatch succeeds with session handle 5), activate, type
one letter, call completeGame; the outer completion timer runs
fastForwardTransactions, its two delayed write-backs confirm the letter
and the completeGame records, then the letter dispatch (still
unresolved all along) succeeds and puts the letter record back to
sent.  All of this is consistent with the real timers: the write-backs
run 800 and 900 milliseconds after completeGame, the finish timer 1600
milliseconds after it, and a network response arriving in between is
nothing unusual. -/
def c1pre : List Event :=
  [Event.startGame, Event.resolveSuccess 0 5, Event.activate,
   Event.submitLetter 97, Event.completeGame, Event.ffChainFire,
   Event.ffOverwrite 1, Event.ffOverwrite 2, Event.resolveSuccess 1 0]

/-- The C1 counterexample execution: the finish timer fires at the end
of c1pre. -/
def c1trace : List Event := c1pre ++ [Event.finishFire]

/-- Execution for the C2 counterexample, up to the delayed write-back:
start, activate, type one letter whose dispatch never resolves, and
call fastForwardTransactions directly (it is part of the exported
interface). -/
def c2pre : List Event :=
  [Event.startGame, Event.resolveSuccess 0 5, Event.activate,
   Event.submitLetter 97, Event.fastForward]

/-- The C2 counterexample execution: the delayed write-back of the
fast-forward snapshot fires on the still-pending letter record. -/
def c2trace : List Event := c2pre ++ [Event.ffOverwrite 1]

/-- Execution for the C4 and C8 counterexamples: a first session types
a letter whose dispatch stays unresolved, completeGame begins draining,
and the player starts a second session while the barrier is still
draining (startGame only checks isActive and the countdown, not
isCompleting); the second session activates, resetting the optimistic
counters while the first letter is still in flight. -/
def c4pre : List Event :=
  [Event.startGame, Event.resolveSuccess 0 5, Event.activate,
   Event.submitLetter 97, Event.completeGame, Event.startGame,
   Event.resolveSuccess 3 9, Event.activate]

/-- C4 counterexample, failure branch: the old letter dispatch fails
after the counter reset, so its rollback is clamped at zero. -/
def c4failT : List Event := c4pre ++ [Event.resolveFail 1 msgOther]

/-- C4 counterexample, success branch: the old letter dispatch succeeds
instead; the counter is identical to the failure branch. -/
def c4succT : List Event := c4pre ++ [Event.resolveSuccess 1 0]

/-- The C8 counterexample execution: a letter typed in the restarted
session is accepted although the completion barrier of the first
session is still draining. -/
def c8trace : List Event := c4pre ++ [Event.submitLetter 98]

/-- A short execution used by several witnesses: one session becomes
active with session handle 5 and one letter is typed; its dispatch is
still in flight. -/
def wTrace : List Event :=
  [Event.startGame, Event.resolveSuccess 0 5, Event.activate,
   Event.submitLetter 97]

/-- The state wTrace reaches. -/
def wState : EngineState := runD wTrace

/-- The letter record of wState. -/
def wTx : LetterTransaction :=
  { id := 1
    type := TxType.letter
    letter := some 97
    hash := none
    status := TxStatus.pending
    error := none
    gameSession := some 5
    fastForwarded := false }

/-- wState after the letter dispatch fails with a plain error. -/
def wFail : EngineState := runD (wTrace ++ [Event.resolveFail 1 msgOther])

/-- wState after the letter dispatch fails with a nonce error. -/
def wFailN : EngineState := runD (wTrace ++ [Event.resolveFail 1 msgNonceErr])

/-- wState after the letter dispatch succeeds. -/
def wSucc : EngineState := runD (wTrace ++ [Event.resolveSuccess 1 0])

/-- wSucc after the simulateConfirmation timer of the letter fires. -/
def wSim : EngineState :=
  runD (wTrace ++ [Event.resolveSuccess 1 0, Event.simulateFire 1])

/-- The sent letter record of wSucc (its submission received hash 2). -/
def wTxSent : LetterTransaction :=
  { id := 1
    type := TxType.letter
    letter := some 97
    hash := some 2
    status := TxStatus.sent
    error := none
    gameSession := some 5
    fastForwarded := false }

/-- The state after a bare startGame call. -/
def wStart : EngineState := runD [Event.startGame]

/-- The pending startGame record of wStart. -/
def wTxStart : LetterTransaction :=
  { id := 0, type := TxType.startGame, status := TxStatus.pending }

/-- wStart after the startGame dispatch fails. -/
def wStartFail : EngineState :=
  runD [Event.startGame, Event.resolveFail 0 msgOther]

/-- The state just before wTrace types its letter. -/
def wActive : EngineState :=
  runD [Event.startGame, Event.resolveSuccess 0 5, Event.activate]

/-- A completing state with the finish timer scheduled: completeGame
was called and its outer completion timer has run. -/
def wFinishPre : EngineState :=
  runD [Event.startGame, Event.resolveSuccess 0 5, Event.activate,
        Event.completeGame, Event.ffChainFire]

/-- wFinishPre after the finish timer fires. -/
def wFinishPost : EngineState :=
  runD [Event.startGame, Event.resolveSuccess 0 5, Event.activate,
        Event.completeGame, Event.ffChainFire, Event.finishFire]

/-- A one-record list for the monitor witnesses: a sent record whose
submission returned hash 3. -/
def demoSent : LetterTransaction :=
  { id := 0
    type := TxType.letter
    letter := some 97
    hash := some 3
    status := TxStatus.sent }

/-- The record set of the monitor witnesses. -/
def demoTxs : List LetterTransaction := [demoSent]

/-- A receipt set containing the hash of demoSent. -/
def demoReceipts : List Nat := [3]

lemma nonceCallsAux_length (net : Nat) :
    ∀ (k : Nat) (cache : Option Nat), (nonceCallsAux net k cache).length = k := by
  intro k
  induction k with
  | zero => intro cache; rfl
  | succ n ih => intro cache; simp [nonceCallsAux, ih]

lemma nonceCallsAux_pairwise (net : Nat) :
    ∀ (k c : Nat),
      List.Pairwise (fun a b => a < b) (nonceCallsAux net k (some c)) ∧
      ∀ x ∈ nonceCallsAux net k (some c), c < x := by
  intro k
  induction k with
  | zero =>
    intro c
    exact ⟨List.Pairwise.nil, by intro x hx; cases hx⟩
  | succ n ih =>
    intro c
    have h2 := ih (c + 1)
    simp only [nonceCallsAux, getNextNonce]
    constructor
    · exact List.Pairwise.cons (fun x hx => h2.2 x hx) h2.1
    · intro x hx
      rcases List.mem_cons.mp hx with h | h
      · omega
      · have := h2.2 x h; omega

lemma updTx_length (txId : Nat) (f : LetterTransaction → LetterTransaction)
    (txs : List LetterTransaction) : (updTx txId f txs).length = txs.length := by
  simp [updTx]

lemma updTx_getElem? (txId : Nat) (f : LetterTransaction → LetterTransaction)
    (txs : List LetterTransaction) (i : Nat) :
    (updTx txId f txs)[i]? =
      (txs[i]?).map (fun t => if t.id = txId then f t else t) := by
  simp [updTx]

lemma updTx_find? (txId : Nat) (f : LetterTransaction → LetterTransaction)
    (txs : List LetterTransaction) (hf : ∀ t, (f t).id = t.id) :
    (updTx txId f txs).find? (fun t => decide (t.id = txId)) =
      (txs.find? (fun t => decide (t.id = txId))).map f := by
  induction txs with
  | nil => rfl
  | cons t ts ih =>
    simp only [updTx, List.map_cons] at ih ⊢
    by_cases h : t.id = txId
    · rw [if_pos h]
      have h2 : (f t).id = txId := by rw [hf]; exact h
      simp [List.find?_cons, h, h2]
    · rw [if_neg h]
      simp [List.find?_cons, h, ih]

lemma resolveFail_spec (s : EngineState) (txId : Nat) (msg : String)
    (tx : LetterTransaction) (s2 : EngineState)
    (hfind : findTx s txId = some tx)
    (hstep : resolveFailStep s txId msg = some s2) :
    txId ∈ s.inFlight ∧
    s2 = { s with
      nonceRef := if containsNonce msg = true then none else s.nonceRef
      gameState := rollbackGameState tx.type s.gameState
      transactions := updTx txId
        (fun t => { t with status := TxStatus.failed, error := some msg })
        s.transactions
      inFlight := s.inFlight.erase txId } := by
  unfold resolveFailStep at hstep
  split at hstep
  case isTrue hmem =>
    rw [hfind] at hstep
    exact ⟨hmem, (Option.some.inj hstep).symm⟩
  case isFalse hmem => exact Option.noConfusion hstep

lemma resolveSuccess_spec (s : EngineState) (txId net : Nat)
    (tx : LetterTransaction) (s2 : EngineState)
    (hfind : findTx s txId = some tx)
    (hstep : resolveSuccessStep s txId net = some s2) :
    txId ∈ s.inFlight ∧
    s2 = (if tx.type = TxType.startGame then
      { s with
        gameState := { s.gameState with gameSession := some net }
        transactions := updTx txId (fun t =>
          { t with hash := some s.nextHash, status := TxStatus.sent
                   gameSession := some net }) s.transactions
        inFlight := s.inFlight.erase txId
        nextHash := s.nextHash + 1
        simulateScheduled := txId :: s.simulateScheduled }
    else
      { s with
        transactions := updTx txId (fun t =>
          { t with hash := some s.nextHash, status := TxStatus.sent })
          s.transactions
        inFlight := s.inFlight.erase txId
        nextHash := s.nextHash + 1
        simulateScheduled := txId :: s.simulateScheduled }) := by
  unfold resolveSuccessStep at hstep
  split at hstep
  case isTrue hmem =>
    rw [hfind] at hstep
    refine ⟨hmem, ?_⟩
    split at hstep
    · exact Option.noConfusion hstep
    · rename_i tx2 heq
      obtain rfl : tx = tx2 := Option.some.inj heq
      by_cases hty : tx.type = TxType.startGame
      · rw [if_pos hty] at hstep ⊢
        exact (Option.some.inj hstep).symm
      · rw [if_neg hty] at hstep ⊢
        exact (Option.some.inj hstep).symm
  case isFalse hmem => exact Option.noConfusion hstep

lemma submitLetter_spec (s : EngineState) (code : Nat) (s2 : EngineState)
    (hstep : submitLetterStep s code = some s2) :
    s.gameState.isActive = true ∧
    truthySession s.gameState.gameSession = true ∧
    s2 = { s with
      gameState := { s.gameState with
        localLetterCount := s.gameState.localLetterCount + 1 }
      transactions := s.transactions ++
        [{ id := s.nextId
           type := TxType.letter
           letter := some code
           status := TxStatus.pending
           gameSession := s.gameState.gameSession }]
      inFlight := s.nextId :: s.inFlight
      nextId := s.nextId + 1 } := by
  unfold submitLetterStep at hstep
  split at hstep
  case isTrue => exact Option.noConfusion hstep
  case isFalse hguard =>
    push_neg at hguard
    refine ⟨?_, ?_, (Option.some.inj hstep).symm⟩
    · cases h : s.gameState.isActive
      · exact absurd h hguard.1
      · rfl
    · cases h : truthySession s.gameState.gameSession
      · exact absurd h hguard.2
      · rfl

lemma simulateFire_spec (s : EngineState) (txId : Nat) (s2 : EngineState)
    (hstep : simulateFireStep s txId = some s2) :
    txId ∈ s.simulateScheduled ∧
    s2 = { s with
      simulateScheduled := s.simulateScheduled.erase txId
      transactions := updTx txId (fun t =>
        { t with status := TxStatus.confirmed, fastForwarded := true })
        s.transactions } := by
  unfold simulateFireStep at hstep
  split at hstep
  case isTrue hmem => exact ⟨hmem, (Option.some.inj hstep).symm⟩
  case isFalse => exact Option.noConfusion hstep

lemma confirmUpd_hash (t : LetterTransaction) : (confirmUpd t).hash = t.hash :=
  rfl

lemma confirmUpd_idem (t : LetterTransaction) :
    confirmUpd (confirmUpd t) = confirmUpd t := rfl

lemma monFoldStep_length (receipts : List Nat) (u : LetterTransaction)
    (txs : List LetterTransaction) :
    ((match u.hash with
      | some h => if h ∈ receipts then confirmByHash h txs else txs
      | none => txs) : List LetterTransaction).length = txs.length := by
  cases u.hash with
  | none => rfl
  | some h =>
    by_cases hr : h ∈ receipts <;> simp [hr, confirmByHash]

lemma monFold_length (receipts : List Nat) :
    ∀ (L txs : List LetterTransaction),
      (monFold receipts L txs).length = txs.length := by
  intro L
  induction L with
  | nil => intro txs; rfl
  | cons u L ih =>
    intro txs
    rw [show monFold receipts (u :: L) txs = monFold receipts L
      (match u.hash with
       | some h => if h ∈ receipts then confirmByHash h txs else txs
       | none => txs) from rfl]
    rw [ih]
    exact monFoldStep_length receipts u txs

lemma monFold_getElem? (receipts : List Nat) :
    ∀ (L txs : List LetterTransaction) (i : Nat) (t : LetterTransaction),
      txs[i]? = some t →
      (monFold receipts L txs)[i]? =
        some (if L.any (hitsHash receipts t.hash) = true
              then confirmUpd t else t) := by
  intro L
  induction L with
  | nil =>
    intro txs i t ht
    simp [monFold, ht]
  | cons u L ih =>
    intro txs i t ht
    cases hu : u.hash with
    | none =>
      have hfold : monFold receipts (u :: L) txs = monFold receipts L txs := by
        simp [monFold, List.foldl_cons, hu]
      have hhead : hitsHash receipts t.hash u = false := by
        simp [hitsHash, hu]
      rw [hfold, ih txs i t ht]
      simp [List.any_cons, hhead]
    | some h =>
      by_cases hr : h ∈ receipts
      · have hfold : monFold receipts (u :: L) txs =
            monFold receipts L (confirmByHash h txs) := by
          simp [monFold, List.foldl_cons, hu, hr]
        have hacc : (confirmByHash h txs)[i]? =
            some (if t.hash = some h then confirmUpd t else t) := by
          simp [confirmByHash, ht]
        rw [hfold]
        by_cases hth : t.hash = some h
        · have hhead : hitsHash receipts t.hash u = true := by
            simp [hitsHash, hu, hth, hr]
          rw [ih _ i (confirmUpd t) (by simp [hacc, hth])]
          simp [List.any_cons, hhead, confirmUpd_idem, confirmUpd_hash,
            ite_self]
        · have hhead : hitsHash receipts t.hash u = false := by
            simp [hitsHash, hu, hth]
          rw [ih _ i t (by simp [hacc, hth])]
          simp [List.any_cons, hhead]
      · have hfold : monFold receipts (u :: L) txs = monFold receipts L txs := by
          simp [monFold, List.foldl_cons, hu, hr]
        have hhead : hitsHash receipts t.hash u = false := by
          simp [hitsHash, hu, hr]
        rw [hfold, ih txs i t ht]
        simp [List.any_cons, hhead]

lemma monitor_any_of_not_sent (receipts : List Nat)
    (txs : List LetterTransaction) (hinj : SentHashesUnshared txs)
    (t : LetterTransaction) (hmem : t ∈ txs)
    (hns : t.status ≠ TxStatus.sent) :
    ((txs.filter (fun u => u.hash.isSome && decide (u.status = TxStatus.sent))).any
      (hitsHash receipts t.hash)) = false := by
  by_contra hcon
  rw [Bool.not_eq_false, List.any_eq_true] at hcon
  obtain ⟨u, hu, hhit⟩ := hcon
  rw [List.mem_filter] at hu
  obtain ⟨humem, hup⟩ := hu
  rw [Bool.and_eq_true] at hup
  have husent : u.status = TxStatus.sent := of_decide_eq_true hup.2
  unfold hitsHash at hhit
  cases hh : u.hash with
  | none => rw [hh] at hhit; exact Bool.noConfusion hhit
  | some hv =>
    rw [hh] at hhit
    rw [Bool.and_eq_true] at hhit
    have hth : t.hash = some hv := of_decide_eq_true hhit.1
    have hut : u = t := hinj u humem t hmem husent (by rw [hh]; rfl)
      (by rw [hh, hth])
    rw [hut] at husent
    exact hns husent

lemma monitor_any_of_sent (receipts : List Nat)
    (txs : List LetterTransaction)
    (t : LetterTransaction) (hmem : t ∈ txs)
    (hsent : t.status = TxStatus.sent) (hv : Nat) (hth : t.hash = some hv) :
    ((txs.filter (fun u => u.hash.isSome && decide (u.status = TxStatus.sent))).any
      (hitsHash receipts t.hash)) = decide (hv ∈ receipts) := by
  by_cases hr : hv ∈ receipts
  · rw [decide_eq_true hr]
    rw [List.any_eq_true]
    refine ⟨t, List.mem_filter.mpr ⟨hmem, by simp [hsent, hth]⟩, ?_⟩
    simp [hitsHash, hth, hr]
  · rw [decide_eq_false hr]
    by_contra hcon
    rw [Bool.not_eq_false, List.any_eq_true] at hcon
    obtain ⟨u, hu, hhit⟩ := hcon
    unfold hitsHash at hhit
    cases hh : u.hash with
    | none => rw [hh] at hhit; exact Bool.noConfusion hhit
    | some hv2 =>
      rw [hh] at hhit
      rw [Bool.and_eq_true] at hhit
      have h1 : t.hash = some hv2 := of_decide_eq_true hhit.1
      have h2 : hv2 ∈ receipts := of_decide_eq_true hhit.2
      rw [hth] at h1
      cases Option.some.inj h1
      exact hr h2

lemma monitor_any_of_no_hash (receipts : List Nat)
    (txs : List LetterTransaction) (t : LetterTransaction)
    (hth : t.hash = none) :
    ((txs.filter (fun u => u.hash.isSome && decide (u.status = TxStatus.sent))).any
      (hitsHash receipts t.hash)) = false := by
  rw [hth]
  rw [List.any_eq_false]
  intro u hu
  unfold hitsHash
  cases hh : u.hash with
  | none => simp
  | some hv => simp

/-- Claim C3: back-to-back calls of the nonce sequencer return strictly
increasing, non-repeating values.  nonceValues lists what n consecutive
getNextNonce calls return for a fresh session: the first call caches
the pending-inclusive transaction count of the account, every later
call advances the cache by one synchronously (getNextNonce touches the
network argument only in the cold-cache branch); the returned values
are n pairwise strictly increasing numbers. -/
theorem c3_nonce_values_strictly_increasing :
    ∀ (networkCount n : Nat),
      (nonceValues networkCount n).length = n ∧
      List.Pairwise (fun a b => a < b) (nonceValues networkCount n) := by
  intro net n
  constructor
  · exact nonceCallsAux_length net n none
  · cases n with
    | zero => exact List.Pairwise.nil
    | succ k =>
      have h := nonceCallsAux_pairwise net k net
      simp only [nonceValues, nonceCallsAux, getNextNonce]
      exact List.Pairwise.cons (fun x hx => h.2 x hx) h.1

/-- Claim C5: when a dispatch throws, the record is mapped to status
failed with the error detail recorded, the kind-specific optimistic
reversal is applied to the game state, and the nonce cache is
invalidated exactly when the error message mentions the nonce word, in
which case the next getNextNonce call re-fetches the count from the
network. -/
theorem c5_dispatch_failure_effects :
    ∀ (s : EngineState) (txId : Nat) (msg : String) (tx : LetterTransaction)
      (s2 : EngineState),
      findTx s txId = some tx →
      resolveFailStep s txId msg = some s2 →
      findTx s2 txId =
        some { tx with status := TxStatus.failed, error := some msg } ∧
      s2.gameState = rollbackGameState tx.type s.gameState ∧
      s2.nonceRef = (if containsNonce msg = true then none else s.nonceRef) ∧
      (containsNonce msg = true →
        ∀ networkCount : Nat,
          getNextNonce networkCount s2.nonceRef =
            (networkCount, some networkCount)) := by
  intro s txId msg tx s2 hfind hstep
  obtain ⟨hmem, hs2⟩ := resolveFail_spec s txId msg tx s2 hfind hstep
  subst hs2
  refine ⟨?_, rfl, rfl, ?_⟩
  · unfold findTx at hfind ⊢
    dsimp only
    rw [updTx_find? txId
      (fun t => { t with status := TxStatus.failed, error := some msg })
      s.transactions (fun t => rfl), hfind]
    rfl
  · intro hmsg networkCount
    simp [hmsg, getNextNonce]

/-- Claim C7: a failed startGame dispatch forces the session back to
idle (isActive false, countdown cleared) and clears the session
handle, leaving the optimistic counters alone; a failed completeGame
dispatch leaves the whole game state (in particular both optimistic
counters) unchanged and only marks the record failed with its error
recorded for display. -/
theorem c7_start_and_complete_failure :
    ∀ (s : EngineState) (txId : Nat) (msg : String) (tx : LetterTransaction)
      (s2 : EngineState),
      findTx s txId = some tx →
      resolveFailStep s txId msg = some s2 →
      (tx.type = TxType.startGame →
        s2.gameState.isActive = false ∧
        s2.gameState.gameSession = none ∧
        s2.gameState.countdown = 0 ∧
        s2.gameState.localLetterCount = s.gameState.localLetterCount ∧
        s2.gameState.localWordCount = s.gameState.localWordCount) ∧
      (tx.type = TxType.completeGame →
        s2.gameState = s.gameState ∧
        findTx s2 txId =
          some { tx with status := TxStatus.failed, error := some msg }) := by
  intro s txId msg tx s2 hfind hstep
  obtain ⟨hmem, hs2⟩ := resolveFail_spec s txId msg tx s2 hfind hstep
  subst hs2
  constructor
  · intro hty
    simp [rollbackGameState, hty]
  · intro hty
    refine ⟨by simp [rollbackGameState, hty], ?_⟩
    unfold findTx at hfind ⊢
    dsimp only
    rw [updTx_find? txId
      (fun t => { t with status := TxStatus.failed, error := some msg })
      s.transactions (fun t => rfl), hfind]
    rfl

/-- Claim C9: an accepted letter action synchronously increments the
optimistic letter counter by exactly one and appends exactly one new
pending record for it, before any network interaction (the dispatch
resolution is a separate, later event of the system); the word counter
is untouched. -/
theorem c9_accepted_letter_effects :
    ∀ (s : EngineState) (code : Nat) (s2 : EngineState),
      submitLetterStep s code = some s2 →
      s2.gameState.localLetterCount = s.gameState.localLetterCount + 1 ∧
      s2.gameState.localWordCount = s.gameState.localWordCount ∧
      s2.transactions = s.transactions ++
        [{ id := s.nextId
           type := TxType.letter
           letter := some code
           status := TxStatus.pending
           gameSession := s.gameState.gameSession }] ∧
      s2.transactions.length = s.transactions.length + 1 := by
  intro s code s2 hstep
  obtain ⟨hact, htru, hs2⟩ := submitLetter_spec s code s2 hstep
  subst hs2
  refine ⟨rfl, rfl, rfl, by simp⟩

/-- Claim C8, amended: a letter action is rejected synchronously, with
the engine state exactly as before (no transition happens at all), if
and only if the session is not active or the session handle is absent
or zero.  A draining completion barrier is not part of the guard: it
blocks letters only because completeGame clears isActive, and a session
restarted during the drain accepts letters again even while
isCompleting is still true (see the C8 counterexample). -/
theorem c8_letter_guard_characterization :
    ∀ (s : EngineState) (code : Nat),
      submitLetterStep s code = none ↔
        (s.gameState.isActive = false ∨
         truthySession s.gameState.gameSession = false) := by
  intro s code
  constructor
  · intro h
    by_contra hcon
    push_neg at hcon
    unfold submitLetterStep at h
    rw [if_neg] at h
    · exact Option.noConfusion h
    · push_neg
      exact hcon
  · intro h
    unfold submitLetterStep
    rw [if_pos h]

lemma rollback_counts (ty : TxType) (g : GameState)
    (h1 : 0 ≤ g.localLetterCount) (h2 : 0 ≤ g.localWordCount) :
    0 ≤ (rollbackGameState ty g).localLetterCount ∧
    0 ≤ (rollbackGameState ty g).localWordCount := by
  cases ty with
  | startGame => exact ⟨h1, h2⟩
  | letter => exact ⟨le_max_left 0 _, h2⟩
  | completeGame => exact ⟨h1, h2⟩

lemma stateInv_step (s : EngineState) (e : Event) (s2 : EngineState)
    (hinv : StateInv s) (hstep : step s e = some s2) : StateInv s2 := by
  obtain ⟨h1, h2, h3, h4⟩ := hinv
  have hfresh : ∀ x ∈ s.nextId :: s.inFlight, x < s.nextId + 1 := by
    intro x hx
    rcases List.mem_cons.mp hx with rfl | hx
    · omega
    · have := h4 x hx; omega
  have hnodup : (s.nextId :: s.inFlight).Nodup :=
    List.nodup_cons.mpr ⟨fun hmem => lt_irrefl _ (h4 _ hmem), h3⟩
  have herase : ∀ txId : Nat, (s.inFlight.erase txId).Nodup :=
    fun txId => h3.erase txId
  have heraseb : ∀ (txId : Nat), ∀ x ∈ s.inFlight.erase txId, x < s.nextId :=
    fun txId x hx => h4 x (List.mem_of_mem_erase hx)
  cases e with
  | startGame =>
    simp only [step, startGameStep] at hstep
    split at hstep
    · exact Option.noConfusion hstep
    · rw [← Option.some.inj hstep]
      exact ⟨h1, h2, hnodup, hfresh⟩
  | activate =>
    simp only [step, activateStep] at hstep
    split at hstep
    · exact Option.noConfusion hstep
    · rw [← Option.some.inj hstep]
      exact ⟨le_refl 0, le_refl 0, h3, h4⟩
  | submitLetter code =>
    simp only [step, submitLetterStep] at hstep
    split at hstep
    · exact Option.noConfusion hstep
    · rw [← Option.some.inj hstep]
      refine ⟨?_, h2, hnodup, hfresh⟩
      dsimp only
      omega
  | completeWord =>
    simp only [step, completeWordStep] at hstep
    split at hstep
    · exact Option.noConfusion hstep
    · rw [← Option.some.inj hstep]
      refine ⟨h1, ?_, h3, h4⟩
      dsimp only
      omega
  | completeGame =>
    simp only [step, completeGameStep] at hstep
    split at hstep
    · exact Option.noConfusion hstep
    · rw [← Option.some.inj hstep]
      exact ⟨h1, h2, hnodup, hfresh⟩
  | resolveSuccess txId net =>
    simp only [step, resolveSuccessStep] at hstep
    split at hstep
    case isTrue hmem =>
      split at hstep
      · exact Option.noConfusion hstep
      · split at hstep
        · rw [← Option.some.inj hstep]
          exact ⟨h1, h2, herase txId, heraseb txId⟩
        · rw [← Option.some.inj hstep]
          exact ⟨h1, h2, herase txId, heraseb txId⟩
    case isFalse => exact Option.noConfusion hstep
  | resolveFail txId msg =>
    simp only [step, resolveFailStep] at hstep
    split at hstep
    case isTrue hmem =>
      split at hstep
      · exact Option.noConfusion hstep
      · rename_i tx2 heq
        rw [← Option.some.inj hstep]
        obtain ⟨hc1, hc2⟩ := rollback_counts tx2.type s.gameState h1 h2
        exact ⟨hc1, hc2, herase txId, heraseb txId⟩
    case isFalse => exact Option.noConfusion hstep
  | simulateFire txId =>
    simp only [step, simulateFireStep] at hstep
    split at hstep
    · rw [← Option.some.inj hstep]
      exact ⟨h1, h2, h3, h4⟩
    · exact Option.noConfusion hstep
  | monitorPass receipts =>
    rw [← Option.some.inj hstep]
    exact ⟨h1, h2, h3, h4⟩
  | fastForward =>
    rw [← Option.some.inj hstep]
    exact ⟨h1, h2, h3, h4⟩
  | ffChainFire =>
    simp only [step, ffChainFireStep] at hstep
    split at hstep
    · exact Option.noConfusion hstep
    · rw [← Option.some.inj hstep]
      exact ⟨h1, h2, h3, h4⟩
  | ffOverwrite txId =>
    simp only [step, ffOverwriteStep] at hstep
    split at hstep
    · exact Option.noConfusion hstep
    · rw [← Option.some.inj hstep]
      exact ⟨h1, h2, h3, h4⟩
  | finishFire =>
    simp only [step, finishFireStep] at hstep
    split at hstep
    · exact Option.noConfusion hstep
    · rw [← Option.some.inj hstep]
      exact ⟨h1, h2, h3, h4⟩
  | drainCheck =>
    simp only [step, drainCheckStep] at hstep
    split at hstep
    · rw [← Option.some.inj hstep]
      exact ⟨h1, h2, h3, h4⟩
    · exact Option.noConfusion hstep
  | resetGame =>
    rw [← Option.some.inj hstep]
    exact ⟨le_refl 0, le_refl 0, h3, h4⟩
  | clearCompleted =>
    rw [← Option.some.inj hstep]
    exact ⟨h1, h2, h3, h4⟩

lemma stateInv_init : StateInv initEngine := by
  refine ⟨le_refl 0, le_refl 0, List.nodup_nil, ?_⟩
  intro x hx
  cases hx

lemma run_inv : ∀ (evs : List Event) (s0 s : EngineState),
    StateInv s0 → run s0 evs = some s → StateInv s := by
  intro evs
  induction evs with
  | nil =>
    intro s0 s h0 hr
    rw [← Option.some.inj hr]
    exact h0
  | cons e es ih =>
    intro s0 s h0 hr
    simp only [run] at hr
    cases hs : step s0 e with
    | none => rw [hs] at hr; exact Option.noConfusion hr
    | some s1 =>
      rw [hs] at hr
      exact ih s1 s (stateInv_step s0 e s1 h0 hs) hr

lemma reachable_inv (s : EngineState) (h : Reachable s) : StateInv s := by
  obtain ⟨evs, hr⟩ := h
  exact run_inv evs initEngine s stateInv_init hr

/-- Claim C6: one polling pass of the confirmation monitor, applied to
any set of records whose sent records do not share their hash with any
other record (true of every state the engine produces, since sent
records carry the fresh identifier of their own submission), changes
only records whose status is sent: a sent record whose hash has a
receipt becomes confirmed (with the fastForwarded flag cleared), a
sent record without a receipt is left completely unchanged, and a
record that is already confirmed (or in any other non-sent status) is
never touched, so polling is idempotent on confirmed records. -/
theorem c6_monitor_pass_characterization :
    ∀ (receipts : List Nat) (txs : List LetterTransaction),
      SentHashesUnshared txs →
      (monitorPass receipts txs).length = txs.length ∧
      ∀ (i : Nat) (t : LetterTransaction), txs[i]? = some t →
        (t.status = TxStatus.confirmed →
          (monitorPass receipts txs)[i]? = some t) ∧
        (t.status ≠ TxStatus.sent →
          (monitorPass receipts txs)[i]? = some t) ∧
        (∀ hv : Nat, t.status = TxStatus.sent → t.hash = some hv →
          (monitorPass receipts txs)[i]? =
            some (if hv ∈ receipts then confirmUpd t else t)) ∧
        (t.status = TxStatus.sent → t.hash = none →
          (monitorPass receipts txs)[i]? = some t) := by
  intro receipts txs hinj
  constructor
  · exact monFold_length receipts _ txs
  · intro i t ht
    have hmem : t ∈ txs := List.getElem?_mem ht
    have hbase : (monitorPass receipts txs)[i]? =
        some (if ((txs.filter (fun u => u.hash.isSome
                && decide (u.status = TxStatus.sent))).any
              (hitsHash receipts t.hash)) = true
          then confirmUpd t else t) :=
      monFold_getElem? receipts _ txs i t ht
    refine ⟨?_, ?_, ?_, ?_⟩
    · intro hconf
      rw [hbase, monitor_any_of_not_sent receipts txs hinj t hmem
          (by rw [hconf]; exact fun hx => TxStatus.noConfusion hx)]
      simp
    · intro hns
      rw [hbase, monitor_any_of_not_sent receipts txs hinj t hmem hns]
      simp
    · intro hv hsent hth
      rw [hbase, monitor_any_of_sent receipts txs t hmem hsent hv hth]
      by_cases hr : hv ∈ receipts
      · simp [hr]
      · simp [hr]
    · intro hsent hth
      rw [hbase, monitor_any_of_no_hash receipts txs t hth]
      simp

/-- Claim C2, amended: confirmation polling changes statuses only along
sent to confirmed and never touches a terminal record (given that sent
records do not share their hash, as in every engine state); dispatch
resolution and simulated confirmation touch only the record with the
dispatched id, but they set its status to sent, failed or confirmed
irrespective of its current status, so the claimed discipline (pending
to sent, sent to confirmed, sent to failed, pending to failed, with
terminal states never left) holds only for records that are not
concurrently fast-forwarded; fastForwardTransactions itself moves
pending records directly to confirmed, contradicting the claim (see
the C2 counterexample). -/
theorem c2_operation_status_characterization :
    (∀ (receipts : List Nat) (txs : List LetterTransaction),
      SentHashesUnshared txs →
      ∀ (i : Nat) (t : LetterTransaction), txs[i]? = some t →
        (t.status ≠ TxStatus.sent →
          (monitorPass receipts txs)[i]? = some t) ∧
        (∀ hv : Nat, t.status = TxStatus.sent → t.hash = some hv →
          (monitorPass receipts txs)[i]? =
            some (if hv ∈ receipts then confirmUpd t else t))) ∧
    (∀ (s : EngineState) (txId net : Nat) (tx : LetterTransaction)
       (s2 : EngineState),
      findTx s txId = some tx →
      resolveSuccessStep s txId net = some s2 →
      ∀ (i : Nat) (t : LetterTransaction), s.transactions[i]? = some t →
        (t.id ≠ txId → s2.transactions[i]? = some t) ∧
        (t.id = txId →
          (s2.transactions[i]?).map (fun u => u.status) =
            some TxStatus.sent)) ∧
    (∀ (s : EngineState) (txId : Nat) (msg : String)
       (tx : LetterTransaction) (s2 : EngineState),
      findTx s txId = some tx →
      resolveFailStep s txId msg = some s2 →
      ∀ (i : Nat) (t : LetterTransaction), s.transactions[i]? = some t →
        (t.id ≠ txId → s2.transactions[i]? = some t) ∧
        (t.id = txId → s2.transactions[i]? =
          some { t with status := TxStatus.failed, error := some msg })) ∧
    (∀ (s : EngineState) (txId : Nat) (s2 : EngineState),
      simulateFireStep s txId = some s2 →
      ∀ (i : Nat) (t : LetterTransaction), s.transactions[i]? = some t →
        s2.transactions[i]? = some (if t.id = txId
          then { t with status := TxStatus.confirmed, fastForwarded := true }
          else t)) ∧
    (∀ (txs : List LetterTransaction) (t : LetterTransaction),
      t ∈ txs → t.status = TxStatus.pending →
      { t with
        status := TxStatus.confirmed
        hash := some (t.hash.getD mockHash)
        fastForwarded := true } ∈ ffSnapshot txs) := by
  refine ⟨?_, ?_, ?_, ?_, ?_⟩
  · intro receipts txs hinj i t ht
    have hmem : t ∈ txs := List.getElem?_mem ht
    have hbase : (monitorPass receipts txs)[i]? =
        some (if ((txs.filter (fun u => u.hash.isSome
                && decide (u.status = TxStatus.sent))).any
              (hitsHash receipts t.hash)) = true
          then confirmUpd t else t) :=
      monFold_getElem? receipts _ txs i t ht
    constructor
    · intro hns
      rw [hbase, monitor_any_of_not_sent receipts txs hinj t hmem hns]
      simp
    · intro hv hsent hth
      rw [hbase, monitor_any_of_sent receipts txs t hmem hsent hv hth]
      by_cases hr : hv ∈ receipts
      · simp [hr]
      · simp [hr]
  · intro s txId net tx s2 hfind hstep i t ht
    obtain ⟨hmem, hs2⟩ := resolveSuccess_spec s txId net tx s2 hfind hstep
    subst hs2
    by_cases hty : tx.type = TxType.startGame
    · rw [if_pos hty]
      constructor
      · intro hid
        dsimp only
        rw [updTx_getElem?, ht]
        simp [hid]
      · intro hid
        dsimp only
        rw [updTx_getElem?, ht]
        simp [hid]
    · rw [if_neg hty]
      constructor
      · intro hid
        dsimp only
        rw [updTx_getElem?, ht]
        simp [hid]
      · intro hid
        dsimp only
        rw [updTx_getElem?, ht]
        simp [hid]
  · intro s txId msg tx s2 hfind hstep i t ht
    obtain ⟨hmem, hs2⟩ := resolveFail_spec s txId msg tx s2 hfind hstep
    subst hs2
    constructor
    · intro hid
      dsimp only
      rw [updTx_getElem?, ht]
      simp [hid]
    · intro hid
      dsimp only
      rw [updTx_getElem?, ht]
      simp [hid]
  · intro s txId s2 hstep i t ht
    obtain ⟨hmem, hs2⟩ := simulateFire_spec s txId s2 hstep
    subst hs2
    dsimp only
    rw [updTx_getElem?, ht]
    rfl
  · intro txs t hmem hpend
    unfold ffSnapshot
    refine List.mem_map.mpr ⟨t, ?_, rfl⟩
    exact List.mem_filter.mpr ⟨hmem, by rw [hpend]; rfl⟩

/-- Claim C1, amended: the completion-monitor effect ends the
completing phase only when no record is pending or sent any more (the
drain condition), but the fixed-delay finish timer scheduled by
completeGame ends the completing phase unconditionally, so the barrier
can leave the completing phase while a record is still pending or sent
(see the C1 counterexample, where a dispatch is still unresolved when
the timer fires). -/
theorem c1_drain_exit_characterization :
    ∀ (s s2 : EngineState),
      (step s Event.drainCheck = some s2 →
        (s.transactions.filter (fun t => pendingOrSent t.status)).isEmpty
          = true ∧
        s.gameState.isCompleting = true ∧
        s2.gameState.isCompleting = false) ∧
      (step s Event.finishFire = some s2 →
        s2.gameState.isCompleting = false ∧
        s2.transactions = s.transactions) := by
  intro s s2
  constructor
  · intro h
    simp only [step, drainCheckStep] at h
    split at h
    case isTrue hc =>
      exact ⟨hc.2, hc.1, by rw [← Option.some.inj h]⟩
    case isFalse => exact Option.noConfusion h
  · intro h
    simp only [step, finishFireStep] at h
    split at h
    case isTrue => exact Option.noConfusion h
    case isFalse =>
      exact ⟨by rw [← Option.some.inj h], by rw [← Option.some.inj h]⟩

/-- Claim C10: in every reachable state both optimistic counters are
non-negative, and the rollback of a failed letter record decrements the
letter counter clamped at zero: when the counter is already zero at
rollback time it stays zero instead of going negative. -/
theorem c10_counters_nonneg :
    ∀ s : EngineState, Reachable s →
      0 ≤ s.gameState.localLetterCount ∧
      0 ≤ s.gameState.localWordCount ∧
      (∀ (txId : Nat) (msg : String) (tx : LetterTransaction)
         (s2 : EngineState),
        findTx s txId = some tx → tx.type = TxType.letter →
        resolveFailStep s txId msg = some s2 →
        s2.gameState.localLetterCount =
          max 0 (s.gameState.localLetterCount - 1) ∧
        0 ≤ s2.gameState.localLetterCount ∧
        (s.gameState.localLetterCount = 0 →
          s2.gameState.localLetterCount = 0)) := by
  intro s hr
  obtain ⟨h1, h2, h3, h4⟩ := reachable_inv s hr
  refine ⟨h1, h2, ?_⟩
  intro txId msg tx s2 hfind hty hstep
  obtain ⟨hmem, hs2⟩ := resolveFail_spec s txId msg tx s2 hfind hstep
  subst hs2
  dsimp only
  rw [hty]
  refine ⟨rfl, le_max_left 0 _, ?_⟩
  intro h0
  rw [show (rollbackGameState TxType.letter s.gameState).localLetterCount
    = max 0 (s.gameState.localLetterCount - 1) from rfl, h0]
  decide

/-- Claim C4, amended: when the dispatch of an in-flight letter record
fails, the rollback decrements the optimistic letter counter by
exactly one less than a successful resolution would leave it, provided
the counter is positive at rollback time; the decrement is clamped at
zero otherwise (which happens when a new session activation reset the
counter while the record was still in flight, see the C4
counterexample); and the reversal is applied exactly once: a record
resolves at most once, and after the failing resolution the
failure-handling event for that record is no longer enabled. -/
theorem c4_rollback_exactly_once :
    ∀ (s : EngineState) (txId : Nat) (msg : String) (net : Nat)
      (tx : LetterTransaction) (s1 s2 : EngineState),
      Reachable s →
      findTx s txId = some tx →
      tx.type = TxType.letter →
      resolveFailStep s txId msg = some s1 →
      resolveSuccessStep s txId net = some s2 →
      s1.gameState.localLetterCount =
        max 0 (s.gameState.localLetterCount - 1) ∧
      s2.gameState.localLetterCount = s.gameState.localLetterCount ∧
      (1 ≤ s.gameState.localLetterCount →
        s1.gameState.localLetterCount + 1 = s2.gameState.localLetterCount) ∧
      resolveFailStep s1 txId msg = none := by
  intro s txId msg net tx s1 s2 hreach hfind hty hfail hsucc
  obtain ⟨hinv1, hinv2, hnodup, hbound⟩ := reachable_inv s hreach
  obtain ⟨hmem, hs1⟩ := resolveFail_spec s txId msg tx s1 hfind hfail
  obtain ⟨hmem2, hs2⟩ := resolveSuccess_spec s txId net tx s2 hfind hsucc
  subst hs1
  subst hs2
  have hne : tx.type ≠ TxType.startGame := by
    rw [hty]
    exact fun hcontra => TxType.noConfusion hcontra
  refine ⟨?_, ?_, ?_, ?_⟩
  · dsimp only
    rw [hty]
    rfl
  · rw [if_neg hne]
  · intro hle
    rw [if_neg hne]
    dsimp only
    rw [hty]
    show max 0 (s.gameState.localLetterCount - 1) + 1
      = s.gameState.localLetterCount
    rw [max_eq_right (by omega : (0 : Int) ≤ s.gameState.localLetterCount - 1)]
    omega
  · have hnot : txId ∉ s.inFlight.erase txId := fun hcon =>
      ((List.Nodup.mem_erase_iff hnodup).mp hcon).1 rfl
    unfold resolveFailStep
    dsimp only
    rw [if_neg hnot]

/-- Counterexample to claim C1 as stated: along the reachable execution
c1trace the completing phase is exited by the finish timer while the
letter record (id 1) still has status sent, because its dispatch
resolved to sent after the fast-forward write-backs had run. -/
theorem c1_completion_counterexample :
    (run initEngine c1trace).isSome = true ∧
    (runD c1pre).gameState.isCompleting = true ∧
    ((runD c1pre).transactions.filter
      (fun t => pendingOrSent t.status)).isEmpty = false ∧
    step (runD c1pre) Event.finishFire = some (runD c1trace) ∧
    (runD c1trace).gameState.isCompleting = false ∧
    statusOf (runD c1trace) 1 = some TxStatus.sent := by decide

/-- Witness for the amended claim C1 at a concrete completing state:
the finish timer of wFinishPre fires and ends the completing phase. -/
theorem c1_drain_exit_witness :
    wFinishPost.gameState.isCompleting = false ∧
    wFinishPost.transactions = wFinishPre.transactions :=
  (c1_drain_exit_characterization wFinishPre wFinishPost).2 (by decide)

/-- Counterexample to claim C2 as stated: the delayed write-back of the
fast-forward snapshot is a single operation that moves the letter
record (id 1) directly from pending to confirmed. -/
theorem c2_pending_to_confirmed_counterexample :
    (run initEngine c2trace).isSome = true ∧
    statusOf (runD c2pre) 1 = some TxStatus.pending ∧
    step (runD c2pre) (Event.ffOverwrite 1) = some (runD c2trace) ∧
    statusOf (runD c2trace) 1 = some TxStatus.confirmed := by decide

/-- Witness for the amended claim C2 at a concrete state: the
simulateConfirmation timer of the sent letter record of wSucc fires and
the record becomes confirmed. -/
theorem c2_operation_status_witness :
    wSim.transactions[1]? = some (if wTxSent.id = 1
      then { wTxSent with
        status := TxStatus.confirmed, fastForwarded := true }
      else wTxSent) :=
  c2_operation_status_characterization.2.2.2.1 wSucc 1 wSim (by decide)
    1 wTxSent (by decide)

/-- Counterexample to claim C4 as stated: along c4pre the letter record
of the first session is still in flight when the second session
activates and resets the counter to zero; its rollback is then clamped
at zero, so the failing execution does not end with one letter fewer
than the succeeding one (both end at zero). -/
theorem c4_clamped_rollback_counterexample :
    (run initEngine c4failT).isSome = true ∧
    (run initEngine c4succT).isSome = true ∧
    statusOf (runD c4failT) 1 = some TxStatus.failed ∧
    (runD c4pre).gameState.localLetterCount = 0 ∧
    (runD c4failT).gameState.localLetterCount + 1 ≠
      (runD c4succT).gameState.localLetterCount := by decide

/-- Witness for the amended claim C4 at the concrete reachable state
wState, whose letter record (id 1) is in flight. -/
theorem c4_rollback_exactly_once_witness :
    wFail.gameState.localLetterCount =
      max 0 (wState.gameState.localLetterCount - 1) ∧
    wSucc.gameState.localLetterCount = wState.gameState.localLetterCount ∧
    resolveFailStep wFail 1 msgOther = none := by
  have h := c4_rollback_exactly_once wState 1 msgOther 0 wTx wFail wSucc
    ⟨wTrace, by decide⟩ (by decide) rfl (by decide) (by decide)
  exact ⟨h.1, h.2.1, h.2.2.2⟩

/-- Witness for claim C5 at the concrete state wState: the letter
dispatch fails with a nonce error, the record is marked failed with
the error recorded, the letter rollback runs, and the nonce cache is
invalidated. -/
theorem c5_dispatch_failure_effects_witness :
    findTx wFailN 1 =
      some { wTx with status := TxStatus.failed, error := some msgNonceErr } ∧
    wFailN.gameState = rollbackGameState wTx.type wState.gameState ∧
    wFailN.nonceRef =
      (if containsNonce msgNonceErr = true then none else wState.nonceRef) := by
  have h := c5_dispatch_failure_effects wState 1 msgNonceErr wTx wFailN
    (by decide) (by decide)
  exact ⟨h.1, h.2.1, h.2.2.1⟩

/-- Witness for claim C6 on a concrete record set: a single sent record
whose hash has a receipt is confirmed by one polling pass. -/
theorem c6_monitor_pass_witness :
    (monitorPass demoReceipts demoTxs).length = demoTxs.length ∧
    (monitorPass demoReceipts demoTxs)[0]? =
      some (if 3 ∈ demoReceipts then confirmUpd demoSent else demoSent) := by
  have hinj : SentHashesUnshared demoTxs := by
    intro u hu t ht2 hus hhs hhash
    rw [List.mem_singleton.mp hu, List.mem_singleton.mp ht2]
  have h := c6_monitor_pass_characterization demoReceipts demoTxs hinj
  exact ⟨h.1, (h.2 0 demoSent (by decide)).2.2.1 3 rfl rfl⟩

/-- Witness for claim C7 at a concrete state: the startGame dispatch of
wStart fails, forcing the session back to idle with the counters
untouched. -/
theorem c7_start_and_complete_failure_witness :
    wStartFail.gameState.isActive = false ∧
    wStartFail.gameState.gameSession = none ∧
    wStartFail.gameState.countdown = 0 ∧
    wStartFail.gameState.localLetterCount =
      wStart.gameState.localLetterCount ∧
    wStartFail.gameState.localWordCount =
      wStart.gameState.localWordCount :=
  (c7_start_and_complete_failure wStart 0 msgOther wTxStart wStartFail
    (by decide) (by decide)).1 rfl

/-- Counterexample to claim C8 as stated: along c4pre the completion
barrier of the first session is still draining (isCompleting is true),
yet the letter typed in the restarted session is accepted: a record is
created and the counter is incremented. -/
theorem c8_letter_during_drain_counterexample :
    (run initEngine c8trace).isSome = true ∧
    (runD c4pre).gameState.isCompleting = true ∧
    step (runD c4pre) (Event.submitLetter 98) = some (runD c8trace) ∧
    (runD c8trace).transactions.length =
      (runD c4pre).transactions.length + 1 ∧
    (runD c8trace).gameState.localLetterCount =
      (runD c4pre).gameState.localLetterCount + 1 := by decide

/-- Witness for claim C9 at the concrete active state wActive: the
accepted letter increments the counter and appends one pending
record. -/
theorem c9_accepted_letter_effects_witness :
    wState.gameState.localLetterCount =
      wActive.gameState.localLetterCount + 1 ∧
    wState.gameState.localWordCount = wActive.gameState.localWordCount ∧
    wState.transactions = wActive.transactions ++
      [{ id := wActive.nextId
         type := TxType.letter
         letter := some 97
         status := TxStatus.pending
         gameSession := wActive.gameState.gameSession }] ∧
    wState.transactions.length = wActive.transactions.length + 1 :=
  c9_accepted_letter_effects wActive 97 wState (by decide)

/-- Witness for claim C10 at the concrete reachable state wState and
its failing letter dispatch. -/
theorem c10_counters_nonneg_witness :
    0 ≤ wState.gameState.localLetterCount ∧
    wFail.gameState.localLetterCount =
      max 0 (wState.gameState.localLetterCount - 1) := by
  have h := c10_counters_nonneg wState ⟨wTrace, by decide⟩
  exact ⟨h.1, (h.2.2 1 msgOther wTx wFail (by decide) rfl (by decide)).1⟩

end TypingRace
